import Mathlib

/-!
Shallow embedding of the `cf-rustracing` OpenTracing client library core:
the tag/log model, sampler, span context, carrier protocol, span state
machine, tracer and delivery channel.  The crate root `src/lib.rs` declares
the modules (`carrier`, `log`, `sampler`, `span`, `tag`, `tracer`) and holds
the integration tests; the module bodies themselves are modelled from the
specification, with the in-crate tests fixing concrete behaviour (delivery
order on drop, finish-callback semantics, tag/log contents of snapshots).
-/

namespace Rustracing

/-! ### Decimal numeric encoding

Modelled from the spec: the text-map carrier stores trace and span ids under
fixed keys as numeric strings (§4.4, "malformed numeric encoding" is a
distinct decode failure).  The concrete module `carrier` is not part of the
provided sources, so the numeric wire encoding is realised here as standard
most-significant-digit-first decimal. -/

/-- The character of one decimal digit (`0`–`9` for `d < 10`). -/
def decDigitChar (d : Nat) : Char := Char.ofNat (48 + d)

/-- Accumulates the decimal digits of `n`, most significant first, in front
of `acc`. -/
def natToDecAux : Nat → List Char → List Char
  | 0, acc => acc
  | n + 1, acc => natToDecAux ((n + 1) / 10) (decDigitChar ((n + 1) % 10) :: acc)
decreasing_by exact Nat.div_lt_self (Nat.succ_pos n) (by decide)

/-- Decimal rendering of a natural number (`0` renders as `"0"`). -/
def natToDec (n : Nat) : List Char := if n = 0 then [decDigitChar 0] else natToDecAux n []

/-- Parse one decimal digit character. -/
def decDigit? (c : Char) : Option Nat :=
  if 48 ≤ c.toNat ∧ c.toNat ≤ 57 then some (c.toNat - 48) else none

/-- Left-to-right decimal parse with accumulator `acc`. -/
def parseDecCore : List Char → Nat → Option Nat
  | [], acc => some acc
  | c :: cs, acc =>
    match decDigit? c with
    | some d => parseDecCore cs (acc * 10 + d)
    | none => none

/-- Parse a non-empty all-digit character list as a natural number. -/
def parseDec : List Char → Option Nat
  | [] => none
  | c :: cs => parseDecCore (c :: cs) 0

/-- `10 ^ (number of decimal digits of n)`, with `tensPow 0 = 1`. -/
def tensPow : Nat → Nat
  | 0 => 1
  | n + 1 => 10 * tensPow ((n + 1) / 10)
decreasing_by exact Nat.div_lt_self (Nat.succ_pos n) (by decide)

/-! ### Fixed-width big-endian byte encoding

Modelled from the spec: the binary carrier is a flat byte buffer with
fixed-width ids and length-prefixed baggage (§4.4).  Bytes are modelled as
`Nat` values below 256; widths are explicit. -/

/-- Big-endian fixed-width byte encoding of `n mod 256 ^ w`. -/
def natToBytesBE : Nat → Nat → List Nat
  | 0, _ => []
  | w + 1, n => natToBytesBE w (n / 256) ++ [n % 256]

/-- Big-endian byte decoding. -/
def bytesToNatBE (l : List Nat) : Nat := l.foldl (fun acc b => acc * 256 + b) 0

/-! ### Data model -/

/-- Modelled from the spec: the closed tag-value type (§4.5), variants as in
the crate's `tag` module (the tests match on `TagValue::Integer`). -/
inductive TagValue where
  | Boolean (value : Bool)
  | Integer (value : Int)
  | Str (value : String)
  | Flt (value : Float)

/-- Modelled from the spec: a `Tag` is a `{name, value}` pair (§3). -/
structure Tag where
  name : String
  value : TagValue

/-- `Tag::new(name, value)`. -/
def Tag.new (name : String) (value : TagValue) : Tag := ⟨name, value⟩

/-- Modelled from the spec: one named field of a structured log record (§4.5). -/
structure LogField where
  name : String
  value : String

/-- Modelled from the spec: `LogEvent` is a timestamped ordered field list (§3). -/
structure LogEvent where
  time : Nat
  fields : List LogField

/-- The standard `error` marker field produced by the fluent log builder. -/
def StdLogField.error : LogField := ⟨"event", "error"⟩

/-- The standard `message` field produced by the fluent log builder. -/
def StdLogField.message (msg : String) : LogField := ⟨"message", msg⟩

/-- Modelled from the spec: `SpanContext` — trace identity, sampling verdict
and baggage, immutable once created (§3). -/
structure SpanContext where
  trace_id : Nat
  span_id : Nat
  sampled : Bool
  baggage : List (String × String)
  deriving DecidableEq

/-- Modelled from the spec: the reference kinds (§3). -/
inductive RefKind where
  | ChildOf
  | FollowsFrom
  deriving DecidableEq

/-- Modelled from the spec: a span reference (§3). -/
structure Reference where
  kind : RefKind
  target : SpanContext
  deriving DecidableEq

/-! ### Carrier protocol: error taxonomy and text-map shape

Modelled from the spec: the `carrier` module is declared in `src/lib.rs` but
its body is not among the provided sources; `inject`/`extract` over the
text-map and binary wire shapes, together with the error taxonomy
`{MissingContext, MalformedField(which), TruncatedBuffer}`, are realised
here from §4.4 and §7 of the specification. -/

/-- Modelled from the spec: the distinct extraction failures (§7). -/
inductive CarrierExtractError where
  | MissingContext
  | MalformedField (which : String)
  | TruncatedBuffer
  deriving DecidableEq

/-- Fixed text-map key carrying the trace id. -/
def traceIdKey : String := "ot-traceid"

/-- Fixed text-map key carrying the span id. -/
def spanIdKey : String := "ot-spanid"

/-- Fixed text-map key carrying the sampled flag (`"1"`/`"0"`, absent means
not sampled). -/
def sampledKey : String := "ot-sampled"

/-- Reserved marker put in front of every baggage key in the text map, so
baggage entries cannot collide with unrelated carrier entries. -/
def baggageKeyMark : String := "ot-baggage-"

/-- First-match association lookup in an ordered text map. -/
def lookupKey (k : String) : List (String × String) → Option String
  | [] => none
  | (k', v) :: rest => if k' = k then some v else lookupKey k rest

/-- Recognise a carrier key as a marked baggage key and recover the baggage
key it carries. -/
def stripBaggageKey (s : String) : Option String :=
  if s.data.take baggageKeyMark.data.length = baggageKeyMark.data then
    some (String.mk (s.data.drop baggageKeyMark.data.length))
  else none

/-- `inject` for the text-map shape: append the fixed id/flag entries and one
marked entry per baggage item. -/
def injectTextMap (ctx : SpanContext) (carrier : List (String × String)) :
    List (String × String) :=
  carrier ++ [(traceIdKey, String.mk (natToDec ctx.trace_id)),
              (spanIdKey, String.mk (natToDec ctx.span_id)),
              (sampledKey, if ctx.sampled then "1" else "0")]
    ++ ctx.baggage.map (fun kv => (baggageKeyMark ++ kv.1, kv.2))

/-- Parse a carrier id value as a number. -/
def parseDecStr (s : String) : Option Nat := parseDec s.data

/-- All baggage items of a text-map carrier, in carrier order (a duplicated
baggage key is resolved by last-match lookup on the extracted context). -/
def baggageOfCarrier (carrier : List (String × String)) : List (String × String) :=
  carrier.filterMap (fun kv => (stripBaggageKey kv.1).map (fun k => (k, kv.2)))

/-- `extract` for the text-map shape.  A missing mandatory id yields
`MissingContext`; a non-numeric id or an unrecognised sampled token yields
`MalformedField`; an absent sampled entry means not sampled. -/
def extractTextMap (carrier : List (String × String)) :
    Except CarrierExtractError SpanContext :=
  match lookupKey traceIdKey carrier with
  | none => .error .MissingContext
  | some ts =>
    match parseDecStr ts with
    | none => .error (.MalformedField "trace_id")
    | some tid =>
      match lookupKey spanIdKey carrier with
      | none => .error .MissingContext
      | some ss =>
        match parseDecStr ss with
        | none => .error (.MalformedField "span_id")
        | some sid =>
          match lookupKey sampledKey carrier with
          | none => .ok ⟨tid, sid, false, baggageOfCarrier carrier⟩
          | some "1" => .ok ⟨tid, sid, true, baggageOfCarrier carrier⟩
          | some "0" => .ok ⟨tid, sid, false, baggageOfCarrier carrier⟩
          | some _ => .error (.MalformedField "sampled")

/-! ### Carrier protocol: binary shape

Modelled from the spec (§4.4): a flat byte buffer holding a fixed-width
trace id (16 bytes), a fixed-width span id (8 bytes), one sampled flag byte,
then a length-prefixed sequence of length-prefixed (key, value) baggage
pairs; lengths are 4-byte big-endian counters and characters travel as
4-byte big-endian scalar values. -/

/-- The wire bytes of one character. -/
def charBytes (c : Char) : List Nat := natToBytesBE 4 c.toNat

/-- The wire bytes of one length-prefixed string. -/
def encodeStr (s : String) : List Nat :=
  natToBytesBE 4 s.data.length ++ (s.data.map charBytes).flatten

/-- `inject` for the binary shape. -/
def injectBinary (ctx : SpanContext) : List Nat :=
  natToBytesBE 16 ctx.trace_id ++ natToBytesBE 8 ctx.span_id
    ++ [if ctx.sampled then 1 else 0]
    ++ natToBytesBE 4 ctx.baggage.length
    ++ (ctx.baggage.map (fun kv => encodeStr kv.1 ++ encodeStr kv.2)).flatten

/-- Consume exactly `n` bytes of the buffer, or fail with `TruncatedBuffer`. -/
def readBytes (n : Nat) (l : List Nat) :
    Except CarrierExtractError (List Nat × List Nat) :=
  if n ≤ l.length then Except.ok (l.take n, l.drop n)
  else Except.error CarrierExtractError.TruncatedBuffer

/-- Consume a `w`-byte big-endian number. -/
def readNat (w : Nat) (l : List Nat) : Except CarrierExtractError (Nat × List Nat) :=
  match readBytes w l with
  | .error e => .error e
  | .ok (bs, rest) => .ok (bytesToNatBE bs, rest)

/-- Consume `n` characters, validating every scalar value. -/
def readChars : Nat → List Nat → Except CarrierExtractError (List Char × List Nat)
  | 0, l => .ok ([], l)
  | n + 1, l =>
    match readNat 4 l with
    | .error e => .error e
    | .ok (m, rest) =>
      if m.isValidChar then
        match readChars n rest with
        | .error e => .error e
        | .ok (cs, rest') => .ok (Char.ofNat m :: cs, rest')
      else .error (.MalformedField "baggage character")

/-- Consume one length-prefixed string. -/
def readStr (l : List Nat) : Except CarrierExtractError (String × List Nat) :=
  match readNat 4 l with
  | .error e => .error e
  | .ok (n, rest) =>
    match readChars n rest with
    | .error e => .error e
    | .ok (cs, rest') => .ok (String.mk cs, rest')

/-- Consume `n` length-prefixed (key, value) baggage pairs. -/
def readBaggage :
    Nat → List Nat → Except CarrierExtractError (List (String × String) × List Nat)
  | 0, l => .ok ([], l)
  | n + 1, l =>
    match readStr l with
    | .error e => .error e
    | .ok (k, r1) =>
      match readStr r1 with
      | .error e => .error e
      | .ok (v, r2) =>
        match readBaggage n r2 with
        | .error e => .error e
        | .ok (bag, r3) => .ok ((k, v) :: bag, r3)

/-- `extract` for the binary shape.  An empty buffer means no context was
injected at all and yields `MissingContext`; a buffer that runs out part way
yields `TruncatedBuffer`; an unrecognised flag byte or an invalid character
scalar yields `MalformedField`. -/
def extractBinary (buf : List Nat) : Except CarrierExtractError SpanContext :=
  if buf = [] then .error .MissingContext
  else
    match readNat 16 buf with
    | .error e => .error e
    | .ok (tid, r1) =>
      match readNat 8 r1 with
      | .error e => .error e
      | .ok (sid, r2) =>
        match readNat 1 r2 with
        | .error e => .error e
        | .ok (flag, r3) =>
          if flag = 0 ∨ flag = 1 then
            match readNat 4 r3 with
            | .error e => .error e
            | .ok (cnt, r4) =>
              match readBaggage cnt r4 with
              | .error e => .error e
              | .ok (bag, _) => .ok ⟨tid, sid, flag = 1, bag⟩
          else .error (.MalformedField "sampled")

/-- The machine-width side conditions under which a context is representable
on the binary wire: ids fit their fixed widths and baggage lengths fit their
4-byte counters. -/
def SpanContext.WireWf (ctx : SpanContext) : Prop :=
  ctx.trace_id < 256 ^ 16 ∧ ctx.span_id < 256 ^ 8 ∧ ctx.baggage.length < 256 ^ 4 ∧
    ∀ kv ∈ ctx.baggage, kv.1.data.length < 256 ^ 4 ∧ kv.2.data.length < 256 ^ 4

instance (ctx : SpanContext) : Decidable ctx.WireWf := by
  unfold SpanContext.WireWf
  exact inferInstance

/-! ### Sampler

Modelled from the spec: the `sampler` module is declared in `src/lib.rs`
(the tests use `AllSampler`); `should_sample(operation_name, trace_id)` is a
pure verdict consulted once, only for trace roots (§4.1). -/

/-- A sampling policy. -/
def Sampler : Type := String → Nat → Bool

/-- `AllSampler`: always retain. -/
def AllSampler : Sampler := fun _ _ => true

/-- `NullSampler`: never retain. -/
def NullSampler : Sampler := fun _ _ => false

/-! ### Span state machine, tracer and delivery channel

Modelled from the spec: the `span` and `tracer` module bodies are not among
the provided sources; the live span, its completion protocol and the
delivery channel are realised from §3, §4.2, §4.3 and §5, with the crate's
own tests (`it_works`, `example_code_works`, `finish_callback`) fixing the
concrete behaviour.  Time stamps and the tracer's random identifiers are
explicit inputs; the callback environment `E` (such as the shared counter of
the `finish_callback` test) is threaded explicitly. -/

/-- The caller-mutable portion of a live span; context, references and start
time are fixed at start (§3: `SpanContext` is immutable once created). -/
structure SpanInner (S : Type) where
  operation_name : String
  tags : List Tag
  logs : List LogEvent
  state : S

/-- A finish callback: it may edit the mutable portion of the still-live
span and its own environment, and cannot re-enter completion (§4.2). -/
def FinishCallback (S E : Type) : Type := E → SpanInner S → SpanInner S × E

/-- A live (started, not yet finished) span. -/
structure Span (S E : Type) where
  context : SpanContext
  start_time : Nat
  references : List Reference
  inner : SpanInner S
  finish_callback : Option (FinishCallback S E)

/-- The immutable completed snapshot. -/
structure FinishedSpan (S : Type) where
  operation_name : String
  start_time : Nat
  finish_time : Nat
  context : SpanContext
  references : List Reference
  tags : List Tag
  logs : List LogEvent
  state : S

variable {S E : Type}

/-- `Span::set_tag`: append; no uniqueness enforced. -/
def Span.set_tag (sp : Span S E) (t : Tag) : Span S E :=
  { sp with inner := { sp.inner with tags := sp.inner.tags ++ [t] } }

/-- `Span::log`: append one structured timestamped event. -/
def Span.log (sp : Span S E) (time : Nat) (fields : List LogField) : Span S E :=
  { sp with inner := { sp.inner with logs := sp.inner.logs ++ [⟨time, fields⟩] } }

/-- `Span::take_finish_callback`: remove the registered callback without
invoking it and return it to the caller. -/
def Span.take_finish_callback (sp : Span S E) :
    Option (FinishCallback S E) × Span S E :=
  (sp.finish_callback, { sp with finish_callback := none })

/-- The tracer's multi-producer single-consumer delivery channel (§4.3, §5):
a closed flag, an optional capacity, and the queue of delivered snapshots. -/
structure Channel (S : Type) where
  closed : Bool
  capacity : Option Nat
  buf : List (FinishedSpan S)

/-- Non-blocking send: a closed or full channel silently drops the span;
otherwise the snapshot is enqueued.  Never an error (§5, §7). -/
def Channel.trySend (ch : Channel S) (fs : FinishedSpan S) : Channel S :=
  if ch.closed then ch
  else
    match ch.capacity with
    | some c => if c ≤ ch.buf.length then ch else { ch with buf := ch.buf ++ [fs] }
    | none => { ch with buf := ch.buf ++ [fs] }

/-- Non-blocking receive (`try_recv`): pop the oldest enqueued snapshot. -/
def Channel.tryRecv (ch : Channel S) : Option (FinishedSpan S) × Channel S :=
  match ch.buf with
  | [] => (none, ch)
  | fs :: rest => (some fs, { ch with buf := rest })

/-- Run the registered finish callback, if any, on the still-live span. -/
def Span.finishData (sp : Span S E) (env : E) : SpanInner S × E :=
  match sp.finish_callback with
  | some cb => cb env sp.inner
  | none => (sp.inner, env)

/-- Snapshot a (possibly callback-edited) live span at `finish_time = now`. -/
def mkFinished (sp : Span S E) (inn : SpanInner S) (now : Nat) : FinishedSpan S :=
  ⟨inn.operation_name, sp.start_time, now, sp.context, sp.references,
    inn.tags, inn.logs, inn.state⟩

/-- `finish` (explicit call or drop on scope exit), executed at most once by
ownership transfer: run the callback, snapshot, and if `context.sampled`
attempt one non-blocking send (§4.2 step 1–4). -/
def Span.finish (sp : Span S E) (now : Nat) (env : E) (ch : Channel S) :
    E × Channel S :=
  let p := sp.finishData env
  if sp.context.sampled then (p.2, ch.trySend (mkFinished sp p.1 now)) else (p.2, ch)

/-- The completion snapshot of a span with no callback edits. -/
def Span.capture (sp : Span S E) (now : Nat) : FinishedSpan S :=
  mkFinished sp sp.inner now

/-- A tracer: owns the sampler (the channel's sending side is passed to
`finish` explicitly). -/
structure Tracer (S E : Type) where
  sampler : Sampler

/-- `Tracer::new(sampler)`: the tracer plus its fresh open unbounded
channel, whose receiving side the caller keeps. -/
def Tracer.new (sampler : Sampler) : Tracer S E × Channel S :=
  (⟨sampler⟩, ⟨false, none, []⟩)

/-- Options accumulated by the span builder: `tracer.span(name)` plus the
fluent `child_of`, `tag` and `finish_callback` calls. -/
structure StartSpanOptions (S E : Type) where
  operation_name : String
  child_of : Option SpanContext := none
  tags : List Tag := []
  finish_callback : Option (FinishCallback S E) := none

/-- The context of a span started as a child: same trace id, same sampled
verdict, copied baggage, fresh span id (§4.2). -/
def childContext (parent : SpanContext) (span_id : Nat) : SpanContext :=
  ⟨parent.trace_id, span_id, parent.sampled, parent.baggage⟩

/-- `start_with_state`: build the live span.  A root consults the sampler
once with its fresh trace id; a child of the first `ChildOf` reference
inherits trace identity, verdict and baggage.  `trace_id`/`span_id` stand
for the tracer's collision-resistant random identifiers. -/
def Tracer.startSpan (tr : Tracer S E) (opts : StartSpanOptions S E)
    (trace_id span_id start_time : Nat) (st : S) : Span S E :=
  match opts.child_of with
  | some parent =>
    { context := childContext parent span_id
      start_time := start_time
      references := [⟨.ChildOf, parent⟩]
      inner := ⟨opts.operation_name, opts.tags, [], st⟩
      finish_callback := opts.finish_callback }
  | none =>
    { context := ⟨trace_id, span_id, tr.sampler opts.operation_name trace_id, []⟩
      start_time := start_time
      references := []
      inner := ⟨opts.operation_name, opts.tags, [], st⟩
      finish_callback := opts.finish_callback }

/-- `Span::child(name, f)`: a child derived from a read-only view of a live
parent — only reference `ChildOf(parent.context)`, inherited trace identity,
verdict and baggage; the crate's `finish_callback` test fixes that the child
also starts with the parent's callback (removable before finishing). -/
def Span.child (parent : Span S E) (name : String) (span_id start_time : Nat)
    (st : S) : Span S E :=
  { context := childContext parent.context span_id
    start_time := start_time
    references := [⟨.ChildOf, parent.context⟩]
    inner := ⟨name, [], [], st⟩
    finish_callback := parent.finish_callback }

/-- Finish (drop) a list of spans in order, threading the callback
environment and the channel. -/
def finishAll : List (Span S E) → Nat → E → Channel S → E × Channel S
  | [], _, env, ch => (env, ch)
  | sp :: rest, now, env, ch =>
    let p := sp.finish now env ch
    finishAll rest now p.1 p.2

/-- `n` successive non-blocking receives, oldest first. -/
def recvList : Nat → Channel S → List (Option (FinishedSpan S)) × Channel S
  | 0, ch => ([], ch)
  | n + 1, ch =>
    let p := ch.tryRecv
    let q := recvList n p.2
    (p.1 :: q.1, q.2)

/-! ### Concrete scenarios from the crate's tests -/

/-- The first match for the test's `find_span_counter` helper: the value of
the first `"callback-call"` tag, when it is an integer. -/
def findSpanCounter (fs : FinishedSpan S) : Option Int :=
  match fs.tags.find? (fun t => t.name == "callback-call") with
  | none => none
  | some t =>
    match t.value with
    | .Integer v => some v
    | _ => none

/-- The finish callback of the `finish_callback` test: fetch-and-increment
the shared counter and tag the span with the fetched value. -/
def cbCounterTag : FinishCallback Unit Int :=
  fun env inn =>
    ({ inn with tags := inn.tags ++ [Tag.new "callback-call" (.Integer env)] }, env + 1)

/-- The `finish_callback` test's parent span, carrying the counter callback. -/
def c4Parent : Span Unit Int :=
  ((Tracer.new AllSampler : Tracer Unit Int × Channel Unit)).1.startSpan
    { operation_name := "parent", finish_callback := some cbCounterTag } 1 10 100 ()

/-- The child that keeps the inherited finish callback. -/
def c4ChildWithCb : Span Unit Int := c4Parent.child "child_with_cb" 11 101 ()

/-- The child that removes its finish callback before finishing. -/
def c4ChildNoCb : Span Unit Int :=
  (c4Parent.child "child_no_cb" 12 102 ()).take_finish_callback.2

/-- Counter environment and channel after the three drops of the
`finish_callback` test (children first, then the parent; counter starts
at 1). -/
def c4Final : Int × Channel Unit :=
  finishAll [c4ChildWithCb, c4ChildNoCb, c4Parent] 200 1
    ((Tracer.new AllSampler : Tracer Unit Int × Channel Unit)).2

/-- The `example_code_works` test's root span. -/
def c5Parent : Span Unit Unit :=
  ((Tracer.new AllSampler : Tracer Unit Unit × Channel Unit)).1.startSpan
    { operation_name := "parent" } 1 10 100 ()

/-- The `example_code_works` test's child span: `child_of` the parent, one
`{"key": "value"}` tag, one error log event. -/
def c5Child : Span Unit Unit :=
  (((Tracer.new AllSampler : Tracer Unit Unit × Channel Unit)).1.startSpan
      { operation_name := "child_span", child_of := some c5Parent.context,
        tags := [Tag.new "key" (.Str "value")] } 0 11 110 ()).log 111
    [StdLogField.error, StdLogField.message "a log message"]

/-- Channel after the `example_code_works` drops (child first, then
parent). -/
def c5Final : Unit × Channel Unit :=
  finishAll [c5Child, c5Parent] 200 ()
    ((Tracer.new AllSampler : Tracer Unit Unit × Channel Unit)).2

/-- A sampled root span with no callback, for concrete instantiations. -/
def wSpanA : Span Unit Unit :=
  ((Tracer.new AllSampler : Tracer Unit Unit × Channel Unit)).1.startSpan
    { operation_name := "alpha" } 5 1 100 ()

/-- A child of `wSpanA`. -/
def wSpanB : Span Unit Unit := wSpanA.child "beta" 2 101 ()

/-- An unsampled root span started under `NullSampler`. -/
def nSpan : Span Unit Unit :=
  ((Tracer.new NullSampler : Tracer Unit Unit × Channel Unit)).1.startSpan
    { operation_name := "quiet" } 3 4 100 ()

/-- A concrete tag-adding finish callback over an integer environment. -/
def wCb : FinishCallback Unit Int :=
  fun env inn =>
    ({ inn with tags := inn.tags ++ [Tag.new "callback-call" (.Integer env)] }, env + 1)

/-- A sampled root span carrying `wCb` as its finish callback. -/
def wCbSpan : Span Unit Int :=
  ((Tracer.new AllSampler : Tracer Unit Int × Channel Unit)).1.startSpan
    { operation_name := "with-cb", finish_callback := some wCb } 21 22 100 ()

/-- A concrete context with baggage, for carrier instantiations. -/
def sampleCtx : SpanContext :=
  ⟨12345678901234567890, 987654321, true, [("userid", "alice"), ("flag", "1")]⟩

/-! ### Properties of the embedding, and the claims -/

theorem decDigit?_decDigitChar (d : Nat) (h : d < 10) :
    decDigit? (decDigitChar d) = some d := by
  interval_cases d <;> decide

theorem parseDecCore_natToDecAux (n : Nat) :
    ∀ (acc : List Char) (k : Nat),
      parseDecCore (natToDecAux n acc) k = parseDecCore acc (k * tensPow n + n) := by
  induction n using Nat.strong_induction_on with
  | _ n ih =>
    match n with
    | 0 => intro acc k; simp [natToDecAux, tensPow]
    | m + 1 =>
      intro acc k
      rw [natToDecAux]
      rw [ih ((m + 1) / 10) (Nat.div_lt_self (Nat.succ_pos m) (by decide))]
      simp only [parseDecCore, decDigit?_decDigitChar _ (Nat.mod_lt _ (by decide))]
      congr 1
      have hdm : 10 * ((m + 1) / 10) + (m + 1) % 10 = m + 1 := Nat.div_add_mod (m + 1) 10
      calc (k * tensPow ((m + 1) / 10) + (m + 1) / 10) * 10 + (m + 1) % 10
          = k * (10 * tensPow ((m + 1) / 10)) + (10 * ((m + 1) / 10) + (m + 1) % 10) := by
            ring
        _ = k * tensPow (m + 1) + (m + 1) := by rw [hdm, tensPow]

theorem natToDecAux_length (n : Nat) :
    ∀ acc : List Char, acc.length ≤ (natToDecAux n acc).length := by
  induction n using Nat.strong_induction_on with
  | _ n ih =>
    match n with
    | 0 => intro acc; simp [natToDecAux]
    | m + 1 =>
      intro acc
      rw [natToDecAux]
      have h := ih ((m + 1) / 10) (Nat.div_lt_self (Nat.succ_pos m) (by decide))
        (decDigitChar ((m + 1) % 10) :: acc)
      simp only [List.length_cons] at h
      omega

theorem natToDec_ne_nil (n : Nat) : natToDec n ≠ [] := by
  unfold natToDec
  split
  · simp
  · rename_i hn
    match n, hn with
    | m + 1, _ =>
      rw [natToDecAux]
      intro hnil
      have h := natToDecAux_length ((m + 1) / 10) [decDigitChar ((m + 1) % 10)]
      rw [hnil] at h
      simp at h

theorem parseDec_of_ne_nil (l : List Char) (h : l ≠ []) : parseDec l = parseDecCore l 0 := by
  match l, h with
  | c :: cs, _ => rfl

/-- Decimal rendering followed by decimal parsing is the identity. -/
theorem parseDec_natToDec (n : Nat) : parseDec (natToDec n) = some n := by
  by_cases h : n = 0
  · subst h; decide
  · rw [parseDec_of_ne_nil _ (natToDec_ne_nil n)]
    unfold natToDec
    rw [if_neg h, parseDecCore_natToDecAux]
    simp [parseDecCore]

theorem length_natToBytesBE (w n : Nat) : (natToBytesBE w n).length = w := by
  induction w generalizing n with
  | zero => rfl
  | succ w ih => simp [natToBytesBE, ih]

theorem foldl_natToBytesBE (w : Nat) :
    ∀ (n acc : Nat),
      (natToBytesBE w n).foldl (fun a b => a * 256 + b) acc = acc * 256 ^ w + n % 256 ^ w := by
  induction w with
  | zero => intro n acc; simp [natToBytesBE, Nat.mod_one]
  | succ w ih =>
    intro n acc
    rw [natToBytesBE, List.foldl_append, ih (n / 256) acc]
    simp only [List.foldl_cons, List.foldl_nil]
    have hmul : n % (256 * 256 ^ w) = n % 256 + 256 * (n / 256 % 256 ^ w) := Nat.mod_mul
    have hpow : (256 : Nat) ^ (w + 1) = 256 * 256 ^ w := by ring
    rw [hpow, hmul]
    ring

/-- Fixed-width byte encoding followed by decoding is the identity below
`256 ^ w`. -/
theorem bytesToNatBE_natToBytesBE (w n : Nat) (h : n < 256 ^ w) :
    bytesToNatBE (natToBytesBE w n) = n := by
  unfold bytesToNatBE
  rw [foldl_natToBytesBE]
  simp [Nat.mod_eq_of_lt h]

theorem stripBaggageKey_marked (k : String) :
    stripBaggageKey (baggageKeyMark ++ k) = some k := by
  unfold stripBaggageKey
  rw [String.data_append, if_pos (List.take_left _ _), List.drop_left]

theorem baggageOfCarrier_marked (l : List (String × String)) :
    baggageOfCarrier (l.map (fun kv => (baggageKeyMark ++ kv.1, kv.2))) = l := by
  induction l with
  | nil => rfl
  | cons kv rest ih =>
    simp only [baggageOfCarrier, List.map_cons, List.filterMap_cons,
      stripBaggageKey_marked, Option.map_some]
    simpa [baggageOfCarrier] using ih

/-- Text-map round trip: extracting from a fresh carrier into which a context
was injected recovers that context exactly. -/
theorem extractTextMap_injectTextMap (ctx : SpanContext) :
    extractTextMap (injectTextMap ctx []) = Except.ok ctx := by
  obtain ⟨tid, sid, smp, bag⟩ := ctx
  have hs1 : stripBaggageKey "ot-traceid" = none := by decide
  have hs2 : stripBaggageKey "ot-spanid" = none := by decide
  have hs3 : stripBaggageKey "ot-sampled" = none := by decide
  cases smp <;>
    simp only [extractTextMap, injectTextMap, lookupKey, traceIdKey, spanIdKey, sampledKey,
      parseDecStr, parseDec_natToDec, baggageOfCarrier, hs1, hs2, hs3, List.nil_append,
      List.cons_append, List.filterMap_cons, Option.map_none, String.reduceEq, reduceIte] <;>
    (induction bag with
      | nil => rfl
      | cons kv rest ih => simp_all [stripBaggageKey_marked])

theorem readBytes_exact (w : Nat) (xs rest : List Nat) (h : xs.length = w) :
    readBytes w (xs ++ rest) = .ok (xs, rest) := by
  subst h
  unfold readBytes
  rw [if_pos (by simp), List.take_left, List.drop_left]

theorem readNat_encoded (w n : Nat) (rest : List Nat) (h : n < 256 ^ w) :
    readNat w (natToBytesBE w n ++ rest) = .ok (n, rest) := by
  unfold readNat
  rw [readBytes_exact w _ rest (length_natToBytesBE w n)]
  dsimp only
  rw [bytesToNatBE_natToBytesBE w n h]

theorem char_toNat_lt_pow (c : Char) : c.toNat < 256 ^ 4 := by
  have h : c.toNat.isValidChar := c.valid
  unfold Nat.isValidChar at h
  norm_num
  omega

theorem readChars_encoded (cs : List Char) (rest : List Nat) :
    readChars cs.length ((cs.map charBytes).flatten ++ rest) = .ok (cs, rest) := by
  induction cs with
  | nil => rfl
  | cons c cs ih =>
    have ec : ∀ r, readNat 4 (charBytes c ++ r) = .ok (c.toNat, r) := fun r => by
      rw [charBytes]
      exact readNat_encoded 4 c.toNat r (char_toNat_lt_pow c)
    have hval : c.toNat.isValidChar := c.valid
    simp only [List.map_cons, List.flatten_cons, List.append_assoc, List.length_cons,
      readChars, ec]
    rw [if_pos hval, ih, Char.ofNat_toNat]

theorem readStr_encoded (s : String) (rest : List Nat) (h : s.data.length < 256 ^ 4) :
    readStr (encodeStr s ++ rest) = .ok (s, rest) := by
  unfold readStr encodeStr
  rw [List.append_assoc, readNat_encoded 4 _ _ h]
  dsimp only
  rw [readChars_encoded]

theorem readBaggage_encoded (bag : List (String × String)) :
    ∀ rest : List Nat,
      (∀ kv ∈ bag, kv.1.data.length < 256 ^ 4 ∧ kv.2.data.length < 256 ^ 4) →
      readBaggage bag.length
          ((bag.map (fun kv => encodeStr kv.1 ++ encodeStr kv.2)).flatten ++ rest)
        = .ok (bag, rest) := by
  induction bag with
  | nil => intro rest _; rfl
  | cons kv bag ih =>
    intro rest h
    obtain ⟨hk, hv⟩ := h kv (by simp)
    have ek : ∀ r, readStr (encodeStr kv.1 ++ r) = .ok (kv.1, r) :=
      fun r => readStr_encoded _ r hk
    have ev : ∀ r, readStr (encodeStr kv.2 ++ r) = .ok (kv.2, r) :=
      fun r => readStr_encoded _ r hv
    have ihh := ih rest (fun p hp => h p (List.mem_cons_of_mem _ hp))
    simp only [List.map_cons, List.flatten_cons, List.append_assoc, List.length_cons,
      readBaggage, ek, ev, ihh]

theorem injectBinary_ne_nil (ctx : SpanContext) : injectBinary ctx ≠ [] := by
  intro heq
  have hlen := congrArg List.length heq
  simp [injectBinary, length_natToBytesBE] at hlen

/-- Binary round trip: extracting from the byte buffer produced for a
wire-representable context recovers that context exactly. -/
theorem extractBinary_injectBinary (ctx : SpanContext) (h : ctx.WireWf) :
    extractBinary (injectBinary ctx) = Except.ok ctx := by
  obtain ⟨tid, sid, smp, bag⟩ := ctx
  obtain ⟨h1, h2, h3, h4⟩ := h
  have hbag := readBaggage_encoded bag [] h4
  rw [List.append_nil] at hbag
  have e1 : ∀ r, readNat 16 (natToBytesBE 16 tid ++ r) = .ok (tid, r) :=
    fun r => readNat_encoded 16 tid r h1
  have e2 : ∀ r, readNat 8 (natToBytesBE 8 sid ++ r) = .ok (sid, r) :=
    fun r => readNat_encoded 8 sid r h2
  have e3 : ∀ r, readNat 4 (natToBytesBE 4 bag.length ++ r) = .ok (bag.length, r) :=
    fun r => readNat_encoded 4 bag.length r h3
  have f0 : ∀ r : List Nat, readNat 1 (0 :: r) = .ok (0, r) := fun r => by
    rw [show ((0 : Nat) :: r) = natToBytesBE 1 0 ++ r from rfl]
    exact readNat_encoded 1 0 r (by norm_num)
  have f1 : ∀ r : List Nat, readNat 1 (1 :: r) = .ok (1, r) := fun r => by
    rw [show ((1 : Nat) :: r) = natToBytesBE 1 1 ++ r from rfl]
    exact readNat_encoded 1 1 r (by norm_num)
  unfold extractBinary
  rw [if_neg (injectBinary_ne_nil _)]
  unfold injectBinary
  cases smp <;>
    simp [List.append_assoc, e1, e2, e3, f0, f1, hbag]

theorem trySend_open_unbounded (ch : Channel S) (fs : FinishedSpan S)
    (h1 : ch.closed = false) (h2 : ch.capacity = none) :
    ch.trySend fs = { ch with buf := ch.buf ++ [fs] } := by
  simp [Channel.trySend, h1, h2]

theorem finish_sampled_no_cb (sp : Span S E) (now : Nat) (env : E) (ch : Channel S)
    (hs : sp.context.sampled = true) (hcb : sp.finish_callback = none)
    (h1 : ch.closed = false) (h2 : ch.capacity = none) :
    sp.finish now env ch = (env, { ch with buf := ch.buf ++ [sp.capture now] }) := by
  simp [Span.finish, Span.finishData, hcb, hs, trySend_open_unbounded ch _ h1 h2,
    Span.capture]

theorem finishAll_sampled_no_cb (spans : List (Span S E)) :
    ∀ (now : Nat) (env : E) (ch : Channel S),
      ch.closed = false → ch.capacity = none →
      (∀ sp ∈ spans, sp.context.sampled = true ∧ sp.finish_callback = none) →
      (finishAll spans now env ch).2
        = { ch with buf := ch.buf ++ spans.map (fun sp => sp.capture now) } := by
  induction spans with
  | nil =>
    intro now env ch _ _ _
    simp [finishAll]
  | cons sp rest ih =>
    intro now env ch h1 h2 h3
    obtain ⟨hs, hcb⟩ := h3 sp (List.mem_cons_self sp rest)
    have hstep : finishAll (sp :: rest) now env ch
        = finishAll rest now (sp.finish now env ch).1 (sp.finish now env ch).2 := rfl
    rw [hstep, finish_sampled_no_cb sp now env ch hs hcb h1 h2]
    dsimp only
    rw [ih now env
      { closed := ch.closed, capacity := ch.capacity, buf := ch.buf ++ [sp.capture now] }
      h1 h2 (fun p hp => h3 p (List.mem_cons_of_mem sp hp))]
    simp

theorem finishAll_unsampled (spans : List (Span S E)) :
    ∀ (now : Nat) (env : E) (ch : Channel S),
      (∀ sp ∈ spans, sp.context.sampled = false) →
      (finishAll spans now env ch).2 = ch := by
  induction spans with
  | nil => intro now env ch _; rfl
  | cons sp rest ih =>
    intro now env ch h
    have hs := h sp (List.mem_cons_self sp rest)
    have hstep : finishAll (sp :: rest) now env ch
        = finishAll rest now (sp.finish now env ch).1 (sp.finish now env ch).2 := rfl
    have hfin : (sp.finish now env ch).2 = ch := by
      simp [Span.finish, hs]
    rw [hstep, hfin]
    exact ih now _ ch (fun p hp => h p (List.mem_cons_of_mem sp hp))

theorem recvList_all (l : List (FinishedSpan S)) :
    ∀ ch : Channel S, ch.buf = l →
      (recvList l.length ch).1 = l.map (fun fs => some fs) := by
  induction l with
  | nil => intro ch _; rfl
  | cons fs rest ih =>
    intro ch hbuf
    have hrecv : ch.tryRecv = (some fs, { ch with buf := rest }) := by
      simp [Channel.tryRecv, hbuf]
    have hstep : recvList (fs :: rest).length ch
        = (ch.tryRecv.1 :: (recvList rest.length ch.tryRecv.2).1,
            (recvList rest.length ch.tryRecv.2).2) := rfl
    rw [hstep, hrecv]
    dsimp only
    rw [ih { ch with buf := rest } rfl]
    rfl

theorem trySend_cases (ch : Channel S) (fs : FinishedSpan S) :
    ch.trySend fs = ch ∨ ch.trySend fs = { ch with buf := ch.buf ++ [fs] } := by
  unfold Channel.trySend
  by_cases hc : ch.closed = true
  · rw [if_pos hc]; exact Or.inl rfl
  · rw [if_neg hc]
    cases hcap : ch.capacity with
    | none => exact Or.inr rfl
    | some c =>
      dsimp only
      by_cases hlen : c ≤ ch.buf.length
      · rw [if_pos hlen]; exact Or.inl rfl
      · rw [if_neg hlen]; exact Or.inr rfl

theorem trySend_closed (ch : Channel S) (fs : FinishedSpan S) (h : ch.closed = true) :
    ch.trySend fs = ch := by
  simp [Channel.trySend, h]

theorem trySend_full (ch : Channel S) (fs : FinishedSpan S) (c : Nat)
    (hcap : ch.capacity = some c) (hlen : c ≤ ch.buf.length) :
    ch.trySend fs = ch := by
  simp [Channel.trySend, hcap, hlen]

/-! ### The claims -/

/-- Claim C1: with an always-sample sampler, finishing (dropping) `N`
started spans delivers exactly `N` `FinishedSpan` values on the tracer's
channel — the queue grows by precisely the `N` snapshots, in order, so no
span is lost and none is delivered twice — and each delivered snapshot
carries the operation name the span was created with.  The spans carry the
always-sample verdict and, as in the sourcing tests, no finish callback
(a callback may edit the name before the snapshot is taken). -/
theorem claim_C1_always_sample_delivers_exactly_N (spans : List (Span S E))
    (now : Nat) (env : E) (ch : Channel S)
    (hopen : ch.closed = false) (hunbounded : ch.capacity = none)
    (hspans : ∀ sp ∈ spans,
      sp.context.sampled = AllSampler sp.inner.operation_name sp.context.trace_id ∧
        sp.finish_callback = none) :
    (finishAll spans now env ch).2.buf
        = ch.buf ++ spans.map (fun sp => sp.capture now) ∧
      (finishAll spans now env ch).2.buf.length = ch.buf.length + spans.length ∧
      (finishAll spans now env ch).2.buf.map FinishedSpan.operation_name
        = ch.buf.map FinishedSpan.operation_name
            ++ spans.map (fun sp => sp.inner.operation_name) := by
  have h := finishAll_sampled_no_cb spans now env ch hopen hunbounded
    (fun sp hsp => ⟨(hspans sp hsp).1, (hspans sp hsp).2⟩)
  refine ⟨by rw [h], by rw [h]; simp, by rw [h]; simp [Span.capture, mkFinished]⟩

/-- Claim C1 witness: two concretely started spans under `AllSampler` are
delivered exactly once each, names preserved. -/
theorem claim_C1_witness :
    (finishAll [wSpanA, wSpanB] 200 ()
        ((Tracer.new AllSampler : Tracer Unit Unit × Channel Unit)).2).2.buf.map
        FinishedSpan.operation_name
      = ["alpha", "beta"] ∧
    (finishAll [wSpanA, wSpanB] 200 ()
        ((Tracer.new AllSampler : Tracer Unit Unit × Channel Unit)).2).2.buf.length = 2 := by
  have hspans : ∀ sp ∈ [wSpanA, wSpanB],
      sp.context.sampled = AllSampler sp.inner.operation_name sp.context.trace_id ∧
        sp.finish_callback = none := by
    intro sp hsp
    simp only [List.mem_cons, List.not_mem_nil, or_false] at hsp
    rcases hsp with rfl | rfl <;> exact ⟨rfl, rfl⟩
  have h := claim_C1_always_sample_delivers_exactly_N [wSpanA, wSpanB] 200 ()
    ((Tracer.new AllSampler : Tracer Unit Unit × Channel Unit)).2 rfl rfl hspans
  exact ⟨by rw [h.2.2]; rfl, by rw [h.2.1]; rfl⟩

/-- Claim C2: for every span context, extracting from a fresh carrier into
which the context was injected recovers exactly the same trace id, span id,
sampled flag and baggage, for both wire shapes; the binary shape asks the
machine-width side conditions `WireWf` of its fixed-width fields. -/
theorem claim_C2_carrier_roundtrip :
    (∀ ctx : SpanContext, extractTextMap (injectTextMap ctx []) = Except.ok ctx) ∧
      (∀ ctx : SpanContext, ctx.WireWf →
        extractBinary (injectBinary ctx) = Except.ok ctx) :=
  ⟨extractTextMap_injectTextMap, extractBinary_injectBinary⟩

/-- Claim C2 witness: the round trip at a concrete context with baggage, on
both wire shapes. -/
theorem claim_C2_witness :
    sampleCtx.WireWf ∧
      extractTextMap (injectTextMap sampleCtx []) = Except.ok sampleCtx ∧
      extractBinary (injectBinary sampleCtx) = Except.ok sampleCtx :=
  ⟨by decide, claim_C2_carrier_roundtrip.1 sampleCtx,
    claim_C2_carrier_roundtrip.2 sampleCtx (by decide)⟩

/-- Claim C3: for a span with a registered finish callback, finishing applies
the callback exactly once, before the snapshot is produced: the delivered
snapshot is built from the single callback application (its tag/log edits
are visible), and the callback's advanced environment is returned.  If
`take_finish_callback` is called first, it returns the callback and the
later finish never invokes it: the environment is unchanged and the
snapshot is the unedited capture. -/
theorem claim_C3_finish_callback_once_before_snapshot (sp : Span S E)
    (cb : FinishCallback S E) (now : Nat) (env : E) (ch : Channel S)
    (hcb : sp.finish_callback = some cb) :
    sp.finish now env ch
        = ((cb env sp.inner).2,
            if sp.context.sampled then
              ch.trySend (mkFinished sp (cb env sp.inner).1 now)
            else ch) ∧
      sp.take_finish_callback.1 = some cb ∧
      sp.take_finish_callback.2.finish now env ch
        = (env, if sp.context.sampled then ch.trySend (sp.capture now) else ch) := by
  refine ⟨?_, ?_, ?_⟩
  · by_cases hs : sp.context.sampled = true <;>
      simp [Span.finish, Span.finishData, hcb, hs]
  · simp [Span.take_finish_callback, hcb]
  · by_cases hs : sp.context.sampled = true <;>
      simp [Span.finish, Span.finishData, Span.take_finish_callback, Span.capture, hs,
        mkFinished]

/-- Claim C3 witness: the callback contract at a concrete span, callback and
channel. -/
theorem claim_C3_witness :
    wCbSpan.finish 200 5 ⟨false, none, []⟩
        = ((wCb 5 wCbSpan.inner).2,
            if wCbSpan.context.sampled then
              Channel.trySend ⟨false, none, []⟩
                (mkFinished wCbSpan (wCb 5 wCbSpan.inner).1 200)
            else ⟨false, none, []⟩) ∧
      wCbSpan.take_finish_callback.1 = some wCb ∧
      wCbSpan.take_finish_callback.2.finish 200 5 ⟨false, none, []⟩
        = (5, if wCbSpan.context.sampled then
              Channel.trySend ⟨false, none, []⟩ (wCbSpan.capture 200)
            else ⟨false, none, []⟩) :=
  claim_C3_finish_callback_once_before_snapshot wCbSpan wCb 200 5 ⟨false, none, []⟩ rfl

/-- Claim C4: the `finish_callback` test scenario — a parent with a
counter-incrementing, `"callback-call"`-tagging callback, one child keeping
the inherited callback and one removing it, dropped children-first — yields
the three snapshots in drop order, where exactly the retaining child and the
parent carry a `"callback-call"` tag, the child with the earlier counter
value `1` and the parent with the later value `2`, and the other child
carries none. -/
theorem claim_C4_finish_callback_scenario :
    c4Final.2.buf.map FinishedSpan.operation_name
        = ["child_with_cb", "child_no_cb", "parent"] ∧
      c4Final.2.buf.map findSpanCounter = [some 1, none, some 2] :=
  ⟨rfl, rfl⟩

/-- Claim C5: the `example_code_works` scenario — root `"parent"`, child
`"child_span"` with tag `{"key": "value"}` and one error log, child dropped
first — delivers the child snapshot first and the parent second, each with
exactly its declared tags and logs. -/
theorem claim_C5_parent_child_scenario :
    c5Final.2.buf.map FinishedSpan.operation_name = ["child_span", "parent"] ∧
      c5Final.2.buf.map FinishedSpan.tags
        = [[Tag.new "key" (TagValue.Str "value")], []] ∧
      c5Final.2.buf.map FinishedSpan.logs
        = [[⟨111, [StdLogField.error, StdLogField.message "a log message"]⟩], []] :=
  ⟨rfl, rfl, rfl⟩

/-- Claim C6: a span started as a child — via `child_of` on the builder or
via `Span::child` — has its parent's trace id and sampled flag; iterating
child creation any number of times from a root context changes neither, so
both are constant across a trace, fixed at the root. -/
theorem claim_C6_trace_id_sampled_inherited :
    (∀ (parent : Span S E) (name : String) (sid t : Nat) (st : S),
        (parent.child name sid t st).context.trace_id = parent.context.trace_id ∧
          (parent.child name sid t st).context.sampled = parent.context.sampled) ∧
      (∀ (tr : Tracer S E) (opts : StartSpanOptions S E) (p : SpanContext)
          (tid sid t : Nat) (st : S), opts.child_of = some p →
          (tr.startSpan opts tid sid t st).context.trace_id = p.trace_id ∧
            (tr.startSpan opts tid sid t st).context.sampled = p.sampled) ∧
      (∀ (root : SpanContext) (sids : List Nat),
          (sids.foldl childContext root).trace_id = root.trace_id ∧
            (sids.foldl childContext root).sampled = root.sampled) := by
  refine ⟨fun parent name sid t st => ⟨rfl, rfl⟩, ?_, ?_⟩
  · intro tr opts p tid sid t st h
    obtain ⟨nm, co, tg, cb⟩ := opts
    cases h
    exact ⟨rfl, rfl⟩
  · intro root sids
    induction sids generalizing root with
    | nil => exact ⟨rfl, rfl⟩
    | cons sid rest ih => simpa [childContext] using ih (childContext root sid)

/-- Claim C6 witness: trace-id and sampled-flag inheritance at a concrete
parent span, a concrete builder with `child_of`, and a three-step child
chain. -/
theorem claim_C6_witness :
    ((wSpanA.child "beta" 2 101 ()).context.trace_id = wSpanA.context.trace_id ∧
        (wSpanA.child "beta" 2 101 ()).context.sampled = wSpanA.context.sampled) ∧
      ((((Tracer.new AllSampler : Tracer Unit Unit × Channel Unit)).1.startSpan
            { operation_name := "x", child_of := some sampleCtx } 7 8 9 ()).context.trace_id
          = sampleCtx.trace_id ∧
        (((Tracer.new AllSampler : Tracer Unit Unit × Channel Unit)).1.startSpan
            { operation_name := "x", child_of := some sampleCtx } 7 8 9 ()).context.sampled
          = sampleCtx.sampled) ∧
      (([1, 2, 3].foldl childContext sampleCtx).trace_id = sampleCtx.trace_id ∧
        ([1, 2, 3].foldl childContext sampleCtx).sampled = sampleCtx.sampled) :=
  ⟨(@claim_C6_trace_id_sampled_inherited Unit Unit).1 wSpanA "beta" 2 101 (),
    (@claim_C6_trace_id_sampled_inherited Unit Unit).2.1
      ((Tracer.new AllSampler : Tracer Unit Unit × Channel Unit)).1
      { operation_name := "x", child_of := some sampleCtx } sampleCtx 7 8 9 () rfl,
    (@claim_C6_trace_id_sampled_inherited Unit Unit).2.2 sampleCtx [1, 2, 3]⟩

/-- Claim C7: a span whose context is unsampled never reaches the channel:
finishing any list of spans carrying the never-sample verdict leaves the
channel exactly as it was (zero deliveries, recorded tags and logs simply
discarded, no error anywhere), and a root started under `NullSampler` is
unsampled. -/
theorem claim_C7_never_sample_zero_deliveries (spans : List (Span S E))
    (now : Nat) (env : E) (ch : Channel S)
    (hspans : ∀ sp ∈ spans,
      sp.context.sampled = NullSampler sp.inner.operation_name sp.context.trace_id) :
    (finishAll spans now env ch).2 = ch ∧
      (∀ (opts : StartSpanOptions S E) (tid sid t : Nat) (st : S),
        opts.child_of = none →
        (((Tracer.new NullSampler : Tracer S E × Channel S)).1.startSpan
            opts tid sid t st).context.sampled = false) := by
  constructor
  · exact finishAll_unsampled spans now env ch (fun sp hsp => hspans sp hsp)
  · intro opts tid sid t st hroot
    obtain ⟨nm, co, tg, cb⟩ := opts
    cases hroot
    rfl

/-- Claim C7 witness: a concrete unsampled span leaves the fresh channel
untouched, and the concrete `NullSampler` root is unsampled. -/
theorem claim_C7_witness :
    (finishAll [nSpan] 200 ()
          ((Tracer.new NullSampler : Tracer Unit Unit × Channel Unit)).2).2
        = ((Tracer.new NullSampler : Tracer Unit Unit × Channel Unit)).2 ∧
      (((Tracer.new NullSampler : Tracer Unit Unit × Channel Unit)).1.startSpan
          { operation_name := "quiet" } 3 4 100 ()).context.sampled = false := by
  have hspans : ∀ sp ∈ [nSpan],
      sp.context.sampled = NullSampler sp.inner.operation_name sp.context.trace_id := by
    intro sp hsp
    simp only [List.mem_singleton] at hsp
    subst hsp
    rfl
  have h := claim_C7_never_sample_zero_deliveries [nSpan] 200 ()
    ((Tracer.new NullSampler : Tracer Unit Unit × Channel Unit)).2 hspans
  exact ⟨h.1, h.2 { operation_name := "quiet" } 3 4 100 () rfl⟩

/-- Claim C8: carrier extraction fails with distinct, specific errors: an
empty carrier (no mandatory id fields) yields `MissingContext` on both wire
shapes, and a binary buffer truncated in the middle of a baggage entry
yields `TruncatedBuffer`. -/
theorem claim_C8_extract_error_taxonomy :
    extractTextMap [] = Except.error CarrierExtractError.MissingContext ∧
      extractBinary [] = Except.error CarrierExtractError.MissingContext ∧
      extractBinary ((injectBinary ⟨1, 2, true, [("k", "v")]⟩).take 43)
        = Except.error CarrierExtractError.TruncatedBuffer :=
  ⟨rfl, rfl, rfl⟩

/-- Claim C9: span completion is total and never surfaces an error: the only
channel outcomes of `finish` are "unchanged" or "exactly one snapshot
enqueued", and on a closed or full channel the finish path still succeeds —
the callback's environment is returned and the span is silently dropped. -/
theorem claim_C9_finish_total_silent_drop :
    (∀ (sp : Span S E) (now : Nat) (env : E) (ch : Channel S),
        (sp.finish now env ch).2.buf = ch.buf ∨
          (sp.finish now env ch).2.buf
            = ch.buf ++ [mkFinished sp (sp.finishData env).1 now]) ∧
      (∀ (sp : Span S E) (now : Nat) (env : E) (ch : Channel S),
          ch.closed = true → sp.finish now env ch = ((sp.finishData env).2, ch)) ∧
      (∀ (sp : Span S E) (now : Nat) (env : E) (ch : Channel S) (c : Nat),
          ch.capacity = some c → c ≤ ch.buf.length →
          sp.finish now env ch = ((sp.finishData env).2, ch)) := by
  refine ⟨?_, ?_, ?_⟩
  · intro sp now env ch
    rcases trySend_cases ch (mkFinished sp (sp.finishData env).1 now) with h | h <;>
      by_cases hs : sp.context.sampled = true <;>
      simp [Span.finish, hs, h]
  · intro sp now env ch hc
    have ht : ∀ fs, ch.trySend fs = ch := fun fs => trySend_closed ch fs hc
    by_cases hs : sp.context.sampled = true <;> simp [Span.finish, hs, ht]
  · intro sp now env ch c hcap hlen
    have ht : ∀ fs, ch.trySend fs = ch := fun fs => trySend_full ch fs c hcap hlen
    by_cases hs : sp.context.sampled = true <;> simp [Span.finish, hs, ht]

/-- Claim C9 witness: a concrete sampled span finishing on a closed channel
and on a full bounded channel — both succeed and deliver nothing. -/
theorem claim_C9_witness :
    wSpanA.finish 200 () ⟨true, none, []⟩ = ((), ⟨true, none, []⟩) ∧
      wSpanA.finish 200 () ⟨false, some 0, []⟩ = ((), ⟨false, some 0, []⟩) :=
  ⟨claim_C9_finish_total_silent_drop.2.1 wSpanA 200 () ⟨true, none, []⟩ rfl,
    claim_C9_finish_total_silent_drop.2.2 wSpanA 200 () ⟨false, some 0, []⟩ 0 rfl
      (Nat.le_refl 0)⟩

/-- Claim C10: delivery is synchronous with the span's drop: immediately
after dropping sampled spans in order onto the tracer's fresh channel, `N`
non-blocking receives (`try_recv`, no waiting) yield exactly their
snapshots, in drop order. -/
theorem claim_C10_synchronous_delivery_order (spans : List (Span S E))
    (now : Nat) (env : E)
    (hspans : ∀ sp ∈ spans, sp.context.sampled = true ∧ sp.finish_callback = none) :
    (recvList spans.length
        (finishAll spans now env
          ((Tracer.new AllSampler : Tracer S E × Channel S)).2).2).1
      = spans.map (fun sp => some (sp.capture now)) := by
  have h := finishAll_sampled_no_cb spans now env
    ((Tracer.new AllSampler : Tracer S E × Channel S)).2 rfl rfl hspans
  have hbuf : (finishAll spans now env
      ((Tracer.new AllSampler : Tracer S E × Channel S)).2).2.buf
        = spans.map (fun sp => sp.capture now) := by
    rw [h]
    rfl
  have hlen : spans.length = (spans.map (fun sp => sp.capture now)).length := by simp
  rw [hlen, recvList_all (spans.map (fun sp => sp.capture now)) _ hbuf]
  simp

/-- Claim C10 witness: after dropping two concrete spans, two immediate
non-blocking receives yield both snapshots in drop order. -/
theorem claim_C10_witness :
    (recvList 2
        (finishAll [wSpanA, wSpanB] 200 ()
          ((Tracer.new AllSampler : Tracer Unit Unit × Channel Unit)).2).2).1
      = [some (wSpanA.capture 200), some (wSpanB.capture 200)] := by
  have hspans : ∀ sp ∈ [wSpanA, wSpanB],
      sp.context.sampled = true ∧ sp.finish_callback = none := by
    intro sp hsp
    simp only [List.mem_cons, List.not_mem_nil, or_false] at hsp
    rcases hsp with rfl | rfl <;> exact ⟨rfl, rfl⟩
  exact claim_C10_synchronous_delivery_order [wSpanA, wSpanB] 200 () hspans

end Rustracing
